import Mathlib

/-!
Verification of the Jetpack game server and client against its
natural-language specification.  The definitions below are a shallow
embedding of the C++ sources: `Physics.cpp` (applyPhysics, checkBounds),
`Server.cpp` (GameServer: loadMap, acceptNewClient, handleClientDisconnect,
checkGameStart, updateGameState, updatePlayers, checkCollisions,
checkGameEnd, resetGame), `Broadcaster.cpp` (broadcastGameState,
broadcastGameOver) and `NetworkClient.cpp` (getPacketSize, networkLoop,
handleGameStateUpdate).  Machine floats are embedded as exact rationals,
C++ `int` as `Int`, byte buffers as `List Nat`, and the player table
(an `unordered_map` iterated in a fixed order during a tick) as a `List`
in iteration order.
-/

namespace Jetpack

/-- `Shared::Protocol::TileType`. -/
inductive TileType where
  | EMPTY
  | COIN
  | ELECTRICSQUARE
deriving DecidableEq, Repr

/-- `Shared::Protocol::CoinState`. -/
inductive CoinState where
  | AVAILABLE
  | COLLECTED_P1
  | COLLECTED_P2
  | COLLECTED_BOTH
deriving DecidableEq, Repr

/-- `Shared::Protocol::PlayerState`. -/
inductive PlayerState where
  | CONNECTED
  | READY
  | PLAYING
  | DEAD
  | FINISHED
  | DISCONNECTED
deriving DecidableEq, Repr

/-- `Shared::Protocol::GameState`. -/
inductive GameState where
  | WAITING_FOR_PLAYERS
  | IN_PROGRESS
  | GAME_OVER
deriving DecidableEq, Repr

/-- Numeric value of a `PlayerState` (its `uint8_t` representation). -/
def PlayerState.toByte : PlayerState → ℕ
  | .CONNECTED => 0
  | .READY => 1
  | .PLAYING => 2
  | .DEAD => 3
  | .FINISHED => 4
  | .DISCONNECTED => 5

/-- `static_cast<PlayerState>(byte)` as performed by
`NetworkClient::handleGameStateUpdate`; bytes `0`-`5` are the enum's
representations, larger bytes do not arise from any `PlayerState`. -/
def stateOfByte : ℕ → PlayerState
  | 0 => PlayerState.CONNECTED
  | 1 => PlayerState.READY
  | 2 => PlayerState.PLAYING
  | 3 => PlayerState.DEAD
  | 4 => PlayerState.FINISHED
  | 5 => PlayerState.DISCONNECTED
  | _ => PlayerState.CONNECTED

/-- Numeric value of a `CoinState` (its `uint8_t` representation). -/
def CoinState.toByte : CoinState → ℕ
  | .AVAILABLE => 0
  | .COLLECTED_P1 => 1
  | .COLLECTED_P2 => 2
  | .COLLECTED_BOTH => 3

/-- Numeric value of a `TileType` (its `uint8_t` representation). -/
def TileType.toByte : TileType → ℕ
  | .EMPTY => 0
  | .COIN => 1
  | .ELECTRICSQUARE => 2

/-- `Shared::Protocol::Player`: socket, id, position, vertical velocity,
jetpack flag, score, lifecycle state.  Float fields are embedded as `ℚ`. -/
structure Player where
  socket : ℤ
  id : ℤ
  posX : ℚ := 0
  posY : ℚ := 0
  velY : ℚ := 0
  jet : Bool := false
  score : ℤ := 0
  state : PlayerState := .CONNECTED
deriving DecidableEq, Repr

/-- A default player value, used only as the fallback of list lookups in
statements about the player table. -/
def dummyPlayer : Player :=
  { socket := 0, id := 0 }

/-- Sample player whose x position lies outside the 16-bit fixed-point
range `±327.68`. -/
def samplePlayerFar : Player :=
  { socket := 1, id := 1, posX := 1000, state := PlayerState.PLAYING }

/-- Sample player table: two Finished players with distinct scores. -/
def samplePlayersDistinct : List Player :=
  [{ socket := 1, id := 1, score := 1, state := PlayerState.FINISHED },
   { socket := 2, id := 2, score := 3, state := PlayerState.FINISHED }]

/-- Sample player table: two Finished players with equal scores. -/
def samplePlayersTied : List Player :=
  [{ socket := 1, id := 1, score := 2, state := PlayerState.FINISHED },
   { socket := 2, id := 2, score := 2, state := PlayerState.FINISHED }]

/-- `Shared::Protocol::GameMap`: dimensions plus a tile grid and a parallel
coin-state grid (row major, outer index = row `y`). -/
structure GameMap where
  width : ℤ := 0
  height : ℤ := 0
  tiles : List (List TileType) := []
  coinStates : List (List CoinState) := []
deriving DecidableEq, Repr

/-- The server session state relevant to the claims: the player table in
iteration order, the map, and the lifecycle state (`m_players`, `m_map`,
`m_gameState` of `GameServer`). -/
structure ServerState where
  players : List Player
  map : GameMap
  gameState : GameState
deriving DecidableEq, Repr

/-- `MIN_PLAYERS` (= `MAX_CLIENTS`) from `Server.hpp`. -/
def MIN_PLAYERS : ℕ := 2

/-- Sample mid-match session: two Playing players on a 3×2 map. -/
def sampleInProgress : ServerState :=
  { players := [{ socket := 1, id := 1, state := PlayerState.PLAYING },
                { socket := 2, id := 2, state := PlayerState.PLAYING }],
    map := { width := 3, height := 2,
             tiles := List.replicate 2 (List.replicate 3 TileType.EMPTY),
             coinStates := List.replicate 2 (List.replicate 3 CoinState.AVAILABLE) },
    gameState := GameState.IN_PROGRESS }

/-! ## Physics (`Physics.cpp`) -/

/-- `std::clamp(v, lo, hi)`: `v < lo ? lo : (hi < v ? hi : v)`. -/
def clampQ (v lo hi : ℚ) : ℚ :=
  if v < lo then lo else if hi < v then hi else v

/-- `GRAVITY = 0.008f`. -/
def GRAVITY : ℚ := 8 / 1000

/-- `JETPACK_FORCE = 0.013f`. -/
def JETPACK_FORCE : ℚ := 13 / 1000

/-- `MAX_VELOCITY = 0.05f`. -/
def MAX_VELOCITY : ℚ := 5 / 100

/-- `HORIZONTAL_SPEED = 0.05f`. -/
def HORIZONTAL_SPEED : ℚ := 5 / 100

/-- `Physics::applyPhysics` (Physics.cpp lines 11-23): gravity, optional
jetpack thrust, velocity clamp, then position integration. -/
def applyPhysics (p : Player) : Player :=
  let velocityY := p.velY + GRAVITY
  let velocityY := if p.jet then velocityY - JETPACK_FORCE else velocityY
  let velocityY := clampQ velocityY (-MAX_VELOCITY) MAX_VELOCITY
  { p with velY := velocityY, posX := p.posX + HORIZONTAL_SPEED,
           posY := p.posY + velocityY }

/-- `Physics::checkBounds` (Physics.cpp lines 25-36): clamp the vertical
position to `[0, map.height - 1]` and zero the vertical velocity at the
boundary; the horizontal position is untouched. -/
def checkBounds (m : GameMap) (p : Player) : Player :=
  if p.posY < 0 then
    { p with posY := 0, velY := 0 }
  else if (m.height : ℚ) - 1 ≤ p.posY then
    { p with posY := (m.height : ℚ) - 1, velY := 0 }
  else p

/-! ## Packet codec

Byte buffers are `List ℕ` (each entry one octet).  The encoder is
`Broadcaster::broadcastGameState` plus `NetworkPacket::addByte/addShort/
serialize`; the decoder is `NetworkClient::getPacketSize`,
`NetworkClient::networkLoop`'s drain loop, and
`NetworkClient::handleGameStateUpdate`. -/

/-- `static_cast<int>(float)` / `static_cast<int16_t>(float)` truncation
toward zero of an exact rational. -/
def truncQ (q : ℚ) : ℤ :=
  if 0 ≤ q then Int.floor q else Int.ceil q

/-- Reduction of an integer to the signed 16-bit value with the same
residue modulo `2^16` (the effect of carrying it through `int16_t`). -/
def wrap16 (z : ℤ) : ℤ :=
  (z + 2 ^ 15) % 2 ^ 16 - 2 ^ 15

/-- `static_cast<uint8_t>` of an integer. -/
def toByte8 (z : ℤ) : ℕ :=
  (z % 2 ^ 8).toNat

/-- `static_cast<uint16_t>` of an integer. -/
def toWord16 (z : ℤ) : ℕ :=
  (z % 2 ^ 16).toNat

/-- `NetworkPacket::addShort`: append a 16-bit value little-endian. -/
def shortBytes (n : ℕ) : List ℕ :=
  [n % 2 ^ 8, n / 2 ^ 8 % 2 ^ 8]

/-- The 10 payload bytes `Broadcaster::broadcastGameState` (lines 88-103)
emits for one player: id, state, x and y as little-endian `int16_t`
fixed-point (value × 100), score as `uint16_t`, jetpack flag, padding. -/
def encodePlayer (p : Player) : List ℕ :=
  [toByte8 p.id, toByte8 (p.state.toByte : ℤ)] ++
    shortBytes (toWord16 (wrap16 (truncQ (p.posX * 100)))) ++
    shortBytes (toWord16 (wrap16 (truncQ (p.posY * 100)))) ++
    shortBytes (toWord16 p.score) ++
    [if p.jet then 1 else 0, 0]

/-- The full serialized GAME_STATE_UPDATE packet: type tag `0x06`, player
count byte, then 10 bytes per player in iteration order. -/
def encodeGameState (ps : List Player) : List ℕ :=
  6 :: (ps.length % 2 ^ 8) :: ps.flatMap encodePlayer

/-- The fields `NetworkClient::handleGameStateUpdate` (lines 353-370)
extracts for one player from its 10-byte block: id and state bytes, the
positions recovered as `int16_t / 100.0f`, the score recovered as an
unsigned 16-bit value, and the jetpack flag. -/
structure DecodedPlayer where
  id : ℕ
  stateByte : ℕ
  posX : ℚ
  posY : ℚ
  score : ℕ
  jet : Bool
deriving DecidableEq, Repr

/-- A default decoded-player value, used only as the fallback of list
lookups in statements. -/
def dummyDecoded : DecodedPlayer :=
  { id := 0, stateByte := 0, posX := 0, posY := 0, score := 0, jet := false }

/-- Field extraction for one 10-byte player block (lines 354-370 of
`NetworkClient.cpp`); byte pairs are reassembled little-endian with `|`
and `<< 8`, positions additionally pass through `int16_t` and `/ 100.0f`. -/
def decodePlayer (b : List ℕ) : DecodedPlayer :=
  { id := b.getD 0 0
    stateByte := b.getD 1 0
    posX := (wrap16 ((b.getD 2 0) ||| ((b.getD 3 0) <<< 8)) : ℚ) / 100
    posY := (wrap16 ((b.getD 4 0) ||| ((b.getD 5 0) <<< 8)) : ℚ) / 100
    score := (b.getD 6 0) ||| ((b.getD 7 0) <<< 8)
    jet := b.getD 8 0 ≠ 0 }

/-- The player-block loop of `handleGameStateUpdate`: one 10-byte block
per player, `count` blocks in order. -/
def decodePlayers (b : List ℕ) : ℕ → List DecodedPlayer
  | 0 => []
  | n + 1 => decodePlayer (b.take 10) :: decodePlayers (b.drop 10) n

/-- `NetworkClient::handleGameStateUpdate` (lines 340-393) on a framed
packet: checks the type tag, reads the count byte, rejects undersized
buffers, then extracts every player block. -/
def decodeGameState (b : List ℕ) : Option (List DecodedPlayer) :=
  if b.headD 0 = 6 then
    if b.length < 2 then none
    else
      let count := b.getD 1 0
      if b.length < 2 + count * 10 then none
      else some (decodePlayers (b.drop 2) count)
  else none

/-- `NetworkClient::getPacketSize` (lines 174-230): the expected total
size of the packet at the head of `data`, computed from the type tag and
embedded header fields alone; `0` means incomplete (or unknown tag). -/
def getPacketSize (data : List ℕ) : ℕ :=
  if data.length < 1 then 0
  else if data.headD 0 = 2 then (if 3 ≤ data.length then 3 else 0)
  else if data.headD 0 = 3 then
    (if data.length < 5 then 0
     else
       if 5 + ((data.getD 1 0) ||| ((data.getD 2 0) <<< 8)) *
           ((data.getD 3 0) ||| ((data.getD 4 0) <<< 8)) * 2 ≤ data.length then
         5 + ((data.getD 1 0) ||| ((data.getD 2 0) <<< 8)) *
           ((data.getD 3 0) ||| ((data.getD 4 0) <<< 8)) * 2
       else 0)
  else if data.headD 0 = 4 then (if 3 ≤ data.length then 3 else 0)
  else if data.headD 0 = 6 then
    (if data.length < 2 then 0
     else
       if 2 + (data.getD 1 0) * 10 ≤ data.length then 2 + (data.getD 1 0) * 10
       else 0)
  else if data.headD 0 = 8 then (if 6 ≤ data.length then 6 else 0)
  else if data.headD 0 = 9 then (if 2 ≤ data.length then 2 else 0)
  else if data.headD 0 = 10 then (if 3 ≤ data.length then 3 else 0)
  else if data.headD 0 = 5 then (if 2 ≤ data.length then 2 else 0)
  else 0

set_option maxHeartbeats 1000000 in
/-- The drain loop inside `NetworkClient::networkLoop` (lines 146-163):
repeatedly frame a packet with `getPacketSize`, consume it, and stop as
soon as the size comes back `0`; the function returns the bytes the loop
retains for the next read. -/
def drainBuffer (buf : List ℕ) : List ℕ :=
  if _h : getPacketSize buf = 0 then buf
  else drainBuffer (buf.drop (getPacketSize buf))
termination_by buf.length
decreasing_by
  have hle : getPacketSize buf ≤ buf.length := by
    unfold getPacketSize
    split_ifs <;> omega
  simp only [List.length_drop]
  omega

/-! ## Map grids and collisions (`Server.cpp`) -/

/-- Read `grid[y][x]`, with a default outside the stored shape (the C++
only indexes after an explicit bounds check). -/
def gridGet (g : List (List α)) (x y : ℤ) (d : α) : α :=
  (g.getD y.toNat []).getD x.toNat d

/-- Write `grid[y][x] := v` (no-op outside the stored shape). -/
def gridSet (g : List (List α)) (x y : ℤ) (v : α) : List (List α) :=
  g.set y.toNat ((g.getD y.toNat []).set x.toNat v)

/-- The coin branch of `GameServer::checkCollisions` (Server.cpp lines
416-455) for one player standing on a COIN tile: given the player id, its
score and the cell's current coin state, return the new score, the new
coin state, and the new tile value for the cell. -/
def collectCoin (playerId : ℤ) (score : ℤ) (currentState : CoinState) :
    ℤ × CoinState × TileType :=
  let alreadyCollected :=
    if playerId = 1 ∧ (currentState = CoinState.COLLECTED_P1 ∨
        currentState = CoinState.COLLECTED_BOTH) then true
    else if playerId = 2 ∧ (currentState = CoinState.COLLECTED_P2 ∨
        currentState = CoinState.COLLECTED_BOTH) then true
    else false
  if alreadyCollected then (score, currentState, TileType.COIN)
  else
    let newScore := score + 1
    if currentState = CoinState.AVAILABLE then
      (newScore,
       if playerId = 1 then CoinState.COLLECTED_P1 else CoinState.COLLECTED_P2,
       TileType.COIN)
    else if currentState = CoinState.COLLECTED_P1 ∧ playerId = 2 then
      (newScore, CoinState.COLLECTED_BOTH, TileType.EMPTY)
    else if currentState = CoinState.COLLECTED_P2 ∧ playerId = 1 then
      (newScore, CoinState.COLLECTED_BOTH, TileType.EMPTY)
    else (newScore, currentState, TileType.COIN)

/-- `GameServer::checkCollisions` (lines 403-462) for one player: skip
non-Playing players, truncate the position to an integer cell, and on an
in-bounds cell resolve the coin pickup or the electric-square death. -/
def checkCollisionsPlayer (p : Player) (m : GameMap) : Player × GameMap :=
  if p.state = PlayerState.PLAYING then
    let cx := truncQ p.posX
    let cy := truncQ p.posY
    if 0 ≤ cx ∧ cx < m.width ∧ 0 ≤ cy ∧ cy < m.height then
      match gridGet m.tiles cx cy TileType.EMPTY with
      | TileType.COIN =>
        let r := collectCoin p.id p.score (gridGet m.coinStates cx cy CoinState.AVAILABLE)
        ({ p with score := r.1 },
         { m with coinStates := gridSet m.coinStates cx cy r.2.1,
                  tiles := gridSet m.tiles cx cy r.2.2 })
      | TileType.ELECTRICSQUARE => ({ p with state := PlayerState.DEAD }, m)
      | TileType.EMPTY => (p, m)
    else (p, m)
  else (p, m)

/-- The player loop of `GameServer::checkCollisions`: each player sees the
map as updated by the players iterated before it. -/
def checkCollisions (s : ServerState) : ServerState :=
  let r := s.players.foldl
    (fun acc p =>
      let pr := checkCollisionsPlayer p acc.2
      (acc.1 ++ [pr.1], pr.2))
    (([] : List Player), s.map)
  { s with players := r.1, map := r.2 }

/-! ## Map loading and reset (`Server.cpp`) -/

/-- `std::vector::resize(count, value)`: truncate when the vector is
longer than `count`, append copies of `value` when it is shorter, and
leave existing elements untouched. -/
def vectorResize (l : List α) (count : ℕ) (value : α) : List α :=
  if count ≤ l.length then l.take count
  else l ++ List.replicate (count - l.length) value

/-- Tile decoding of one map character (`loadMap`'s switch, lines 89-102):
`_` empty, `c` coin, `e` electric square, anything else empty. -/
def charToTile (c : Char) : TileType :=
  if c = 'c' then TileType.COIN
  else if c = 'e' then TileType.ELECTRICSQUARE
  else TileType.EMPTY

/-- The tile-assignment loop of `loadMap` (lines 87-104) for one row:
overwrite the row cell by cell from the characters (cells beyond the
row's stored length would be out-of-bounds writes in the C++). -/
def writeTileRow : List TileType → List Char → List TileType
  | row, [] => row
  | [], _ => []
  | _ :: rest, c :: cs => charToTile c :: writeTileRow rest cs

/-- The tile-assignment loop of `loadMap` over all rows. -/
def writeTiles : List (List TileType) → List (List Char) → List (List TileType)
  | g, [] => g
  | [], _ => []
  | row :: g, l :: ls => writeTileRow row l :: writeTiles g ls

/-- `GameServer::loadMap` (lines 53-107) given the non-I/O content of the
map file as its non-empty lines are read: fails on an empty file or on
ragged rows; resizes the existing tile and coin-state grids (a no-op when
the dimensions are unchanged), then overwrites the tiles — and only the
tiles — from the characters.  `old` is the current `m_map`, because the
C++ loads into the member in place. -/
def loadMap (old : GameMap) (lines : List (List Char)) : Option GameMap :=
  let lines := lines.filter (fun l => l ≠ [])
  if lines = [] then none
  else
    let height := lines.length
    let width := (lines.headD []).length
    if lines.all (fun l => l.length = width) then
      some
        { width := (width : ℤ)
          height := (height : ℤ)
          tiles := writeTiles
            (vectorResize old.tiles height (List.replicate width TileType.EMPTY))
            lines
          coinStates :=
            vectorResize old.coinStates height
              (List.replicate width CoinState.AVAILABLE) }
    else none

/-- `GameServer::resetGame` (lines 504-519): close and drop every player
socket, clear the player table, reload the map in place, and return to
`WAITING_FOR_PLAYERS`; a reload failure is fatal (`none`). -/
def resetGame (s : ServerState) (lines : List (List Char)) : Option ServerState :=
  (loadMap s.map lines).map fun m =>
    { players := [], map := m, gameState := GameState.WAITING_FOR_PLAYERS }

/-! ## Connection lifecycle (`Server.cpp`) -/

/-- `GameServer::checkGameStart` (lines 335-353): once at least
`MIN_PLAYERS` clients are connected while waiting, mark every player
Ready at the fixed spawn and move to `IN_PROGRESS`. -/
def checkGameStart (s : ServerState) : ServerState :=
  if s.gameState ≠ GameState.WAITING_FOR_PLAYERS then s
  else if MIN_PLAYERS ≤ s.players.length then
    { s with gameState := GameState.IN_PROGRESS,
             players := s.players.map fun p =>
               { p with state := PlayerState.READY,
                        posX := 1, posY := (s.map.height : ℚ) - 2 } }
  else s

/-- `GameServer::acceptNewClient` (lines 157-186): register the socket,
insert a player with id `table size + 1` (an `unordered_map::emplace`,
which is a no-op if the socket key is already present), and check whether
the game can start.  No capacity test is performed. -/
def acceptNewClient (s : ServerState) (clientSocket : ℤ) : ServerState :=
  if s.players.any fun p => p.socket = clientSocket then checkGameStart s
  else
    checkGameStart
      { s with players :=
          s.players ++ [{ socket := clientSocket, id := (s.players.length : ℤ) + 1 }] }

/-- `GameServer::handleClientDisconnect` (lines 188-216): remove the
player for this socket; if a match is in progress and fewer than
`MIN_PLAYERS` Playing players remain, declare the game over (GAME_OVER is
broadcast with no winner) — without any reset. -/
def handleClientDisconnect (s : ServerState) (clientSocket : ℤ) : ServerState :=
  let players := s.players.filter fun p => p.socket ≠ clientSocket
  if s.gameState = GameState.IN_PROGRESS ∧
      (players.countP fun p => p.state = PlayerState.PLAYING) < MIN_PLAYERS then
    { s with players := players, gameState := GameState.GAME_OVER }
  else { s with players := players }

/-! ## Tick update and game end (`Server.cpp`) -/

/-- `GameServer::updatePlayers` (lines 388-401): physics, bounds, then
finish detection (`x ≥ width` → FINISHED) for each Playing player. -/
def updatePlayers (s : ServerState) : ServerState :=
  { s with players := s.players.map fun p =>
      if p.state = PlayerState.PLAYING then
        let p := checkBounds s.map (applyPhysics p)
        if (s.map.width : ℚ) ≤ p.posX then { p with state := PlayerState.FINISHED }
        else p
      else p }

/-- The winner loop of `GameServer::checkGameEnd` (lines 487-497):
`winnerId`/`highestScore` start at `-1`; the first non-dead player wins
immediately when a death occurred, otherwise a strictly higher score
takes over the running maximum. -/
def winnerLoop (anyDead : Bool) : List Player → ℤ → ℤ → ℤ
  | [], winnerId, _ => winnerId
  | p :: ps, winnerId, highestScore =>
    if anyDead ∧ p.state ≠ PlayerState.DEAD then p.id
    else if highestScore < p.score then winnerLoop anyDead ps p.id p.score
    else winnerLoop anyDead ps winnerId highestScore

/-- The winner reported in the GAME_OVER broadcast. -/
def selectWinner (anyDead : Bool) (ps : List Player) : ℤ :=
  winnerLoop anyDead ps (-1) (-1)

/-- `anyDead` as computed by `checkGameEnd`'s scan (lines 469-478). -/
def anyDeadIn (ps : List Player) : Bool :=
  ps.any fun p => p.state = PlayerState.DEAD

/-- `allFinished` as computed by `checkGameEnd`'s scan: only a Playing
player falsifies it. -/
def allFinishedIn (ps : List Player) : Bool :=
  ps.all fun p => p.state ≠ PlayerState.PLAYING

/-- `activePlayersCount` as computed by `checkGameEnd`'s scan: Playing or
Finished players. -/
def activeCount (ps : List Player) : ℕ :=
  ps.countP fun p =>
    p.state = PlayerState.PLAYING ∨ p.state = PlayerState.FINISHED

/-- The end condition of `checkGameEnd` (line 480-481). -/
def gameEndFires (ps : List Player) : Prop :=
  (allFinishedIn ps = true ∧ 0 < activeCount ps) ∨ anyDeadIn ps = true ∨
    (activeCount ps < MIN_PLAYERS ∧ MIN_PLAYERS ≤ ps.length)

instance (ps : List Player) : Decidable (gameEndFires ps) := by
  unfold gameEndFires
  infer_instance

/-- `GameServer::checkGameEnd` (lines 464-502): when the end condition
fires, the state goes to GAME_OVER, the winner is selected and broadcast,
and `resetGame` runs (its map-reload failure is fatal, `none`).  Returns
the new state and `some winnerId` when GAME_OVER was broadcast. -/
def checkGameEnd (s : ServerState) (lines : List (List Char)) :
    Option (ServerState × Option ℤ) :=
  if gameEndFires s.players then
    (resetGame { s with gameState := GameState.GAME_OVER } lines).map
      fun s2 => (s2, some (selectWinner (anyDeadIn s.players) s.players))
  else some (s, none)

/-- `GameServer::updateGameState` (lines 355-386): nothing happens unless
a match is in progress; a tick either performs the synchronized
Ready→Playing promotion or runs physics, collisions and the end check. -/
def updateGameState (s : ServerState) (lines : List (List Char)) :
    Option (ServerState × Option ℤ) :=
  if s.gameState ≠ GameState.IN_PROGRESS then some (s, none)
  else
    let allReady := s.players.all fun p =>
      p.state = PlayerState.PLAYING ∨ p.state = PlayerState.READY
    let anyPlaying := s.players.any fun p => p.state = PlayerState.PLAYING
    if allReady ∧ ¬anyPlaying then
      some
        ({ s with players := s.players.map fun p =>
            if p.state = PlayerState.READY then
              { p with state := PlayerState.PLAYING }
            else p },
         none)
    else checkGameEnd (checkCollisions (updatePlayers s)) lines

/-! ## Helper lemmas -/

/-- `std::clamp` into a non-empty interval is `max lo (min hi v)`. -/
theorem clampQ_eq_max_min (v lo hi : ℚ) (h : lo ≤ hi) :
    clampQ v lo hi = max lo (min hi v) := by
  unfold clampQ
  split_ifs with h1 h2
  · rw [min_eq_right (le_of_lt (lt_of_lt_of_le h1 h)), max_eq_left (le_of_lt h1)]
  · rw [min_eq_left (le_of_lt h2), max_eq_right h]
  · rw [min_eq_right (not_lt.mp h2), max_eq_right (not_lt.mp h1)]

/-! ## C5: applyPhysics -/

/-- C5: `applyPhysics` adds gravity `0.008` to the vertical velocity,
subtracts the jetpack force `0.013` exactly when the jetpack flag is set,
clamps the result to `[-0.05, 0.05]`, advances `x` by `0.05` regardless
of input and `y` by the clamped velocity, and changes no other field of
the player (it is a pure function of its argument). -/
theorem c5_applyPhysics_spec (p : Player) :
    (applyPhysics p).velY =
      max (-(5 / 100 : ℚ)) (min (5 / 100)
        (p.velY + 8 / 1000 - (if p.jet then 13 / 1000 else 0))) ∧
    -(5 / 100 : ℚ) ≤ (applyPhysics p).velY ∧
    (applyPhysics p).velY ≤ 5 / 100 ∧
    (applyPhysics p).posX = p.posX + 5 / 100 ∧
    (applyPhysics p).posY = p.posY + (applyPhysics p).velY ∧
    (applyPhysics p).socket = p.socket ∧
    (applyPhysics p).id = p.id ∧
    (applyPhysics p).jet = p.jet ∧
    (applyPhysics p).score = p.score ∧
    (applyPhysics p).state = p.state := by
  simp only [applyPhysics, GRAVITY, JETPACK_FORCE, MAX_VELOCITY, HORIZONTAL_SPEED]
  rw [clampQ_eq_max_min _ _ _ (by norm_num)]
  refine ⟨?_, ?_, ?_, by trivial, by trivial, by trivial, by trivial,
    by trivial, by trivial, by trivial⟩
  · cases p.jet <;> simp
  · exact le_max_left _ _
  · exact max_le (by norm_num) (min_le_left _ _)

/-! ## C9: checkBounds -/

/-- C9 counterexample: on the degenerate map of height `0`, `checkBounds`
is not idempotent.  A player at `y = 0` is moved to `y = height - 1 = -1`
by one application, and back to `y = 0` by a second one. -/
theorem c9_counterexample :
    checkBounds { width := 3, height := 0 }
        (checkBounds { width := 3, height := 0 } { socket := 5, id := 1 }) ≠
      checkBounds { width := 3, height := 0 } { socket := 5, id := 1 } := by
  simp only [checkBounds]
  norm_num

/-- C9 (amended): for every map whose height is at least `1` — which
`loadMap` guarantees for every map it accepts — `checkBounds` is
idempotent, never changes `position.x`, clamps `y < 0` to `0` with zeroed
vertical velocity, and clamps `y ≥ height - 1` to `height - 1` with
zeroed vertical velocity. -/
theorem c9_checkBounds_idempotent (m : GameMap) (p : Player)
    (h : 1 ≤ m.height) :
    checkBounds m (checkBounds m p) = checkBounds m p ∧
    (checkBounds m p).posX = p.posX ∧
    (p.posY < 0 →
      (checkBounds m p).posY = 0 ∧ (checkBounds m p).velY = 0) ∧
    (¬p.posY < 0 → (m.height : ℚ) - 1 ≤ p.posY →
      (checkBounds m p).posY = (m.height : ℚ) - 1 ∧
        (checkBounds m p).velY = 0) := by
  have hH : (0 : ℚ) ≤ (m.height : ℚ) - 1 := by
    have h1 : (1 : ℚ) ≤ (m.height : ℚ) := by exact_mod_cast h
    linarith
  refine ⟨?_, ?_, ?_, ?_⟩
  · unfold checkBounds
    split_ifs <;> simp_all <;> linarith
  · unfold checkBounds
    split_ifs <;> rfl
  · intro h1
    unfold checkBounds
    rw [if_pos h1]
    exact ⟨rfl, rfl⟩
  · intro h1 h2
    unfold checkBounds
    rw [if_neg h1, if_pos h2]
    exact ⟨rfl, rfl⟩

/-- C1: for a player id in `{1, 2}` standing on a COIN cell, the score
rises by exactly 1 iff the player has not already collected that coin
(player 1 blocked by `COLLECTED_P1`/`COLLECTED_BOTH`, player 2 by
`COLLECTED_P2`/`COLLECTED_BOTH`); the coin state moves `AVAILABLE →
COLLECTED_P<id>` on a first collection and to `COLLECTED_BOTH` on the
second distinct player's collection; the tile becomes EMPTY exactly at
the `COLLECTED_BOTH` transition; a repeated visit adds no further score;
and `checkCollisions` applies exactly this kernel to a Playing player
whose truncated cell is in bounds and holds a COIN. -/
theorem c1_coin_collection (playerId score : ℤ) (st : CoinState)
    (hpid : playerId = 1 ∨ playerId = 2) :
    ((collectCoin playerId score st).1 = score + 1 ↔
      ¬((playerId = 1 ∧ (st = CoinState.COLLECTED_P1 ∨
          st = CoinState.COLLECTED_BOTH)) ∨
        (playerId = 2 ∧ (st = CoinState.COLLECTED_P2 ∨
          st = CoinState.COLLECTED_BOTH)))) ∧
    ((collectCoin playerId score st).1 = score + 1 ∨
      (collectCoin playerId score st).1 = score) ∧
    (st = CoinState.AVAILABLE →
      (collectCoin playerId score st).2.1 =
        (if playerId = 1 then CoinState.COLLECTED_P1
         else CoinState.COLLECTED_P2)) ∧
    ((st = CoinState.COLLECTED_P1 ∧ playerId = 2) ∨
        (st = CoinState.COLLECTED_P2 ∧ playerId = 1) →
      (collectCoin playerId score st).2.1 = CoinState.COLLECTED_BOTH) ∧
    ((collectCoin playerId score st).2.2 = TileType.EMPTY ↔
      ((collectCoin playerId score st).2.1 = CoinState.COLLECTED_BOTH ∧
        st ≠ CoinState.COLLECTED_BOTH)) ∧
    ((collectCoin playerId (collectCoin playerId score st).1
        (collectCoin playerId score st).2.1).1 =
      (collectCoin playerId score st).1) ∧
    (∀ p : Player, ∀ m : GameMap, p.state = PlayerState.PLAYING →
      (0 ≤ truncQ p.posX ∧ truncQ p.posX < m.width ∧
        0 ≤ truncQ p.posY ∧ truncQ p.posY < m.height) →
      gridGet m.tiles (truncQ p.posX) (truncQ p.posY) TileType.EMPTY =
        TileType.COIN →
      (checkCollisionsPlayer p m).1.score =
        (collectCoin p.id p.score
          (gridGet m.coinStates (truncQ p.posX) (truncQ p.posY)
            CoinState.AVAILABLE)).1 ∧
      (checkCollisionsPlayer p m).2.coinStates =
        gridSet m.coinStates (truncQ p.posX) (truncQ p.posY)
          (collectCoin p.id p.score
            (gridGet m.coinStates (truncQ p.posX) (truncQ p.posY)
              CoinState.AVAILABLE)).2.1 ∧
      (checkCollisionsPlayer p m).2.tiles =
        gridSet m.tiles (truncQ p.posX) (truncQ p.posY)
          (collectCoin p.id p.score
            (gridGet m.coinStates (truncQ p.posX) (truncQ p.posY)
              CoinState.AVAILABLE)).2.2) := by
  refine ⟨?_, ?_, ?_, ?_, ?_, ?_, ?_⟩
  · rcases hpid with h | h <;> subst h <;> cases st <;>
      simp [collectCoin]
  · rcases hpid with h | h <;> subst h <;> cases st <;>
      simp [collectCoin]
  · intro hst
    subst hst
    rcases hpid with h | h <;> subst h <;> simp [collectCoin]
  · rintro (⟨hst, hid⟩ | ⟨hst, hid⟩) <;> subst hst <;> subst hid <;>
      simp [collectCoin]
  · rcases hpid with h | h <;> subst h <;> cases st <;>
      simp [collectCoin]
  · rcases hpid with h | h <;> subst h <;> cases st <;>
      simp [collectCoin]
  · intro p m hstate hbounds htile
    simp only [checkCollisionsPlayer, if_pos hstate, if_pos hbounds, htile]
    exact ⟨by trivial, by trivial, by trivial⟩

/-- C1 witness: player 2 collecting a coin already collected by player 1
gains a point, the coin state reaches `COLLECTED_BOTH`, and the tile is
cleared. -/
theorem c1_witness :
    (collectCoin 2 4 CoinState.COLLECTED_P1).1 = 5 ∧
    (collectCoin 2 4 CoinState.COLLECTED_P1).2.1 = CoinState.COLLECTED_BOTH ∧
    (collectCoin 2 4 CoinState.COLLECTED_P1).2.2 = TileType.EMPTY := by
  have hc := c1_coin_collection 2 4 CoinState.COLLECTED_P1 (Or.inr rfl)
  refine ⟨?_, hc.2.2.2.1 (Or.inl ⟨rfl, rfl⟩), hc.2.2.2.2.1.mpr ⟨?_, by decide⟩⟩
  · exact hc.1.mpr (by decide)
  · exact hc.2.2.2.1 (Or.inl ⟨rfl, rfl⟩)

/-- C7: for a buffer whose type tag is MAP_DATA and whose header encodes
`width = 5`, `height = 3`, `getPacketSize` is determined by the tag and
header fields alone: it returns `0` for every such buffer holding fewer
than `35 = 5 + 5·3·2` bytes and exactly `35` once at least `35` bytes are
available. -/
theorem c7_getPacketSize_mapData (data : List ℕ)
    (h0 : data.headD 0 = 3)
    (hw : 5 ≤ data.length → data.getD 1 0 = 5 ∧ data.getD 2 0 = 0 ∧
      data.getD 3 0 = 3 ∧ data.getD 4 0 = 0) :
    (data.length < 35 → getPacketSize data = 0) ∧
    (35 ≤ data.length → getPacketSize data = 35) := by
  have hlen1 : ¬data.length < 1 := by
    cases data with
    | nil => simp at h0
    | cons a l => simp
  unfold getPacketSize
  rw [h0, if_neg hlen1, if_neg (by norm_num), if_pos rfl]
  by_cases h5 : data.length < 5
  · rw [if_pos h5]
    exact ⟨fun _ => rfl, fun h35 => absurd h5 (by omega)⟩
  · obtain ⟨b1, b2, b3, b4⟩ := hw (by omega)
    have e1 : (5 : ℕ) ||| (0 <<< 8) = 5 := by decide
    have e2 : (3 : ℕ) ||| (0 <<< 8) = 3 := by decide
    rw [if_neg h5, b1, b2, b3, b4, e1, e2]
    norm_num

/-- C7 witness: the theorem applied to the bare 5-byte MAP_DATA header
(incomplete, size `0`) and to a full 35-byte packet (size `35`). -/
theorem c7_witness :
    getPacketSize [3, 5, 0, 3, 0] = 0 ∧
    getPacketSize ([3, 5, 0, 3, 0] ++ List.replicate 30 7) = 35 := by
  constructor
  · exact (c7_getPacketSize_mapData [3, 5, 0, 3, 0] (by decide)
      (fun _ => by decide)).1 (by decide)
  · exact (c7_getPacketSize_mapData ([3, 5, 0, 3, 0] ++ List.replicate 30 7)
      (by decide) (fun _ => by decide)).2 (by decide)

/-- C8: a buffer whose first byte is none of the known type tags
(`0x02`-`0x06`, `0x08`-`0x0A`) is framed as zero-length by
`getPacketSize`, and the receive loop consequently consumes nothing: the
retained buffer after the drain loop is exactly the input buffer. -/
theorem c8_unknown_tag_keeps_buffer (t : ℕ) (rest : List ℕ)
    (h2 : t ≠ 2) (h3 : t ≠ 3) (h4 : t ≠ 4) (h5 : t ≠ 5) (h6 : t ≠ 6)
    (h8 : t ≠ 8) (h9 : t ≠ 9) (h10 : t ≠ 10) :
    getPacketSize (t :: rest) = 0 ∧ drainBuffer (t :: rest) = t :: rest := by
  have hgps : getPacketSize (t :: rest) = 0 := by
    unfold getPacketSize
    simp only [List.headD_cons, List.length_cons]
    rw [if_neg (by omega), if_neg h2, if_neg h3, if_neg h4, if_neg h6,
      if_neg h8, if_neg h9, if_neg h10, if_neg h5]
  refine ⟨hgps, ?_⟩
  unfold drainBuffer
  rw [dif_pos hgps]

/-- C8 witness: the unknown tag `0x07` (PLAYER_POSITION, which the client
does not frame) leaves a three-byte buffer untouched. -/
theorem c8_witness :
    getPacketSize [7, 1, 2] = 0 ∧ drainBuffer [7, 1, 2] = [7, 1, 2] :=
  c8_unknown_tag_keeps_buffer 7 [1, 2] (by decide) (by decide) (by decide)
    (by decide) (by decide) (by decide) (by decide) (by decide)

/-- C9 witness: the amended theorem applied to a concrete map of height 2
and a player below the floor. -/
theorem c9_witness :
    checkBounds { width := 3, height := 2 }
        (checkBounds { width := 3, height := 2 }
          { socket := 5, id := 1, posY := -1 }) =
      checkBounds { width := 3, height := 2 }
        { socket := 5, id := 1, posY := -1 } ∧
    (checkBounds { width := 3, height := 2 }
        { socket := 5, id := 1, posY := -1 }).posX = 0 := by
  have hc := c9_checkBounds_idempotent { width := 3, height := 2 }
    { socket := 5, id := 1, posY := -1 } (by decide)
  exact ⟨hc.1, hc.2.1⟩

/-! ## C2 and C4: reset and accept -/

/-- C2: `resetGame` does clear the player table and return to
`WAITING_FOR_PLAYERS`, but it does **not** reset the coin-state grid:
reloading the one-tile map `c` after player 1 collected its coin leaves
the cell at `COLLECTED_P1`, because `loadMap` resizes the coin-state grid
to its existing dimensions (a no-op) and never overwrites its entries. -/
theorem c2_reset_keeps_stale_coin_state :
    resetGame
        { players := [{ socket := 7, id := 1, score := 1,
                        state := PlayerState.FINISHED }],
          map := { width := 1, height := 1, tiles := [[TileType.COIN]],
                   coinStates := [[CoinState.COLLECTED_P1]] },
          gameState := GameState.GAME_OVER }
        [['c']] =
      some
        { players := [],
          map := { width := 1, height := 1, tiles := [[TileType.COIN]],
                   coinStates := [[CoinState.COLLECTED_P1]] },
          gameState := GameState.WAITING_FOR_PLAYERS } := by
  rfl

/-- C4: `acceptNewClient` performs no capacity check, so the player table
can grow beyond the session capacity of 2: a third accepted socket yields
a table of 3 players. -/
theorem c4_third_client_grows_table :
    (acceptNewClient
        (acceptNewClient
          (acceptNewClient
            { players := [],
              map := { width := 11, height := 1,
                       tiles := [List.replicate 11 TileType.EMPTY],
                       coinStates := [List.replicate 11 CoinState.AVAILABLE] },
              gameState := GameState.WAITING_FOR_PLAYERS }
            10)
          11)
        12).players.length = 3 := by
  rfl

/-! ## C3: winner selection -/

/-- When a death occurred, the winner loop returns the id of the first
non-dead player in iteration order, whatever the accumulators hold, as
long as a non-dead player exists. -/
theorem winnerLoop_dead (ps : List Player) :
    ∀ w h : ℤ, (∃ p ∈ ps, p.state ≠ PlayerState.DEAD) →
    ∃ i, i < ps.length ∧
      (∀ j, j < i → (ps.getD j dummyPlayer).state = PlayerState.DEAD) ∧
      (ps.getD i dummyPlayer).state ≠ PlayerState.DEAD ∧
      winnerLoop true ps w h = (ps.getD i dummyPlayer).id := by
  induction ps with
  | nil => intro w h hex; simp at hex
  | cons p ps ih =>
    intro w h hex
    by_cases hp : p.state = PlayerState.DEAD
    · have hex2 : ∃ q ∈ ps, q.state ≠ PlayerState.DEAD := by
        rcases hex with ⟨q, hq, hqs⟩
        rcases List.mem_cons.mp hq with rfl | hq2
        · exact absurd hp hqs
        · exact ⟨q, hq2, hqs⟩
      have hstep : ∃ w2 h2 : ℤ,
          winnerLoop true (p :: ps) w h = winnerLoop true ps w2 h2 := by
        by_cases hs : h < p.score
        · refine ⟨p.id, p.score, ?_⟩
          conv_lhs => rw [winnerLoop]
          rw [if_neg (by simp [hp]), if_pos hs]
        · refine ⟨w, h, ?_⟩
          conv_lhs => rw [winnerLoop]
          rw [if_neg (by simp [hp]), if_neg hs]
      obtain ⟨w2, h2, hw2⟩ := hstep
      obtain ⟨i, hi, hprev, hnd, heq⟩ := ih w2 h2 hex2
      refine ⟨i + 1, by simpa using Nat.succ_lt_succ hi, ?_, ?_, ?_⟩
      · intro j hj
        cases j with
        | zero => simpa using hp
        | succ j => simpa using hprev j (Nat.lt_of_succ_lt_succ hj)
      · simpa using hnd
      · rw [hw2]; simpa using heq
    · refine ⟨0, by simp, by omega, by simpa using hp, ?_⟩
      conv_lhs => rw [winnerLoop]
      rw [if_pos (by simpa using hp)]
      simp

/-- With no death, the winner loop either keeps its accumulator (when no
score beats it) or returns the id of the first player attaining the
maximum among the scores that beat the accumulator. -/
theorem winnerLoop_alive (ps : List Player) :
    ∀ w h : ℤ,
    (winnerLoop false ps w h = w ∧ ∀ p ∈ ps, p.score ≤ h) ∨
    (∃ i, i < ps.length ∧
      winnerLoop false ps w h = (ps.getD i dummyPlayer).id ∧
      h < (ps.getD i dummyPlayer).score ∧
      (∀ j, j < ps.length →
        (ps.getD j dummyPlayer).score ≤ (ps.getD i dummyPlayer).score) ∧
      (∀ j, j < i →
        (ps.getD j dummyPlayer).score < (ps.getD i dummyPlayer).score)) := by
  induction ps with
  | nil => intro w h; left; simp [winnerLoop]
  | cons p ps ih =>
    intro w h
    have hhead : winnerLoop false (p :: ps) w h =
        if h < p.score then winnerLoop false ps p.id p.score
        else winnerLoop false ps w h := by
      conv_lhs => rw [winnerLoop]
      rw [if_neg (by simp)]
    by_cases hs : h < p.score
    · rw [hhead, if_pos hs]
      rcases ih p.id p.score with ⟨heq, hall⟩ | ⟨i, hi, heq, hgt, hle, hlt⟩
      · right
        refine ⟨0, by simp, by simpa using heq, by simpa using hs, ?_, ?_⟩
        · intro j hj
          cases j with
          | zero => simp
          | succ j =>
            have hjl : j < ps.length := by simpa using hj
            have hm : ps.getD j dummyPlayer ∈ ps := by
              rw [List.getD_eq_getElem ps dummyPlayer hjl]
              exact List.getElem_mem hjl
            simpa using hall (ps.getD j dummyPlayer) hm
        · intro j hj; omega
      · right
        refine ⟨i + 1, by simpa using Nat.succ_lt_succ hi, by simpa using heq,
          by simpa using lt_trans hs hgt, ?_, ?_⟩
        · intro j hj
          cases j with
          | zero => simpa using le_of_lt hgt
          | succ j => simpa using hle j (by simpa using Nat.lt_of_succ_lt_succ hj)
        · intro j hj
          cases j with
          | zero => simpa using hgt
          | succ j => simpa using hlt j (Nat.lt_of_succ_lt_succ hj)
    · rw [hhead, if_neg hs]
      rcases ih w h with ⟨heq, hall⟩ | ⟨i, hi, heq, hgt, hle, hlt⟩
      · left
        refine ⟨heq, ?_⟩
        intro q hq
        rcases List.mem_cons.mp hq with rfl | hq2
        · omega
        · exact hall q hq2
      · right
        refine ⟨i + 1, by simpa using Nat.succ_lt_succ hi, by simpa using heq,
          by simpa using hgt, ?_, ?_⟩
        · intro j hj
          cases j with
          | zero => simpa using le_of_lt (lt_of_le_of_lt (not_lt.mp hs) hgt)
          | succ j => simpa using hle j (by simpa using Nat.lt_of_succ_lt_succ hj)
        · intro j hj
          cases j with
          | zero => simpa using lt_of_le_of_lt (not_lt.mp hs) hgt
          | succ j => simpa using hlt j (Nat.lt_of_succ_lt_succ hj)

/-- C3 counterexample: with no death and equal scores (both players
Finished on 2 points), the winner reported is player 1 — the **first**
player of the comparison scan — not the later one the claim predicts. -/
theorem c3_counterexample :
    anyDeadIn samplePlayersTied = false ∧
    selectWinner (anyDeadIn samplePlayersTied) samplePlayersTied = 1 := by
  exact ⟨rfl, rfl⟩

/-- C3 (amended): when the end condition fires with a death, the winner is
the first non-dead player in iteration order (whenever one exists); with
no death the winner is the player with the strictly highest score, and on
equal scores the **earliest** player of the left-to-right comparison scan
wins (first max wins, because the loop uses a strict `>`). -/
theorem c3_winner_selection (ps : List Player) (hne : ps ≠ [])
    (hscores : ∀ p ∈ ps, 0 ≤ p.score) :
    (anyDeadIn ps = true → (∃ p ∈ ps, p.state ≠ PlayerState.DEAD) →
      ∃ i, i < ps.length ∧
        (∀ j, j < i → (ps.getD j dummyPlayer).state = PlayerState.DEAD) ∧
        (ps.getD i dummyPlayer).state ≠ PlayerState.DEAD ∧
        selectWinner (anyDeadIn ps) ps = (ps.getD i dummyPlayer).id) ∧
    (anyDeadIn ps = false →
      ∃ i, i < ps.length ∧
        selectWinner (anyDeadIn ps) ps = (ps.getD i dummyPlayer).id ∧
        (∀ j, j < ps.length →
          (ps.getD j dummyPlayer).score ≤ (ps.getD i dummyPlayer).score) ∧
        (∀ j, j < i →
          (ps.getD j dummyPlayer).score < (ps.getD i dummyPlayer).score)) := by
  constructor
  · intro hd hex
    rw [hd]
    exact winnerLoop_dead ps (-1) (-1) hex
  · intro hd
    rw [hd]
    unfold selectWinner
    rcases winnerLoop_alive ps (-1) (-1) with ⟨_, hall⟩ | ⟨i, hi, heq, _, hle, hlt⟩
    · rcases List.exists_mem_of_ne_nil ps hne with ⟨q, hq⟩
      have := hscores q hq
      have := hall q hq
      omega
    · exact ⟨i, hi, heq, hle, hlt⟩

/-- C3 witness: the amended theorem applied to two Finished players with
scores 1 and 3; the winner is the first player attaining the maximum. -/
theorem c3_witness :
    ∃ i, i < samplePlayersDistinct.length ∧
      selectWinner (anyDeadIn samplePlayersDistinct) samplePlayersDistinct =
        (samplePlayersDistinct.getD i dummyPlayer).id ∧
      (∀ j, j < samplePlayersDistinct.length →
        (samplePlayersDistinct.getD j dummyPlayer).score ≤
          (samplePlayersDistinct.getD i dummyPlayer).score) ∧
      (∀ j, j < i →
        (samplePlayersDistinct.getD j dummyPlayer).score <
          (samplePlayersDistinct.getD i dummyPlayer).score) :=
  (c3_winner_selection samplePlayersDistinct (by simp [samplePlayersDistinct])
    (by decide)).2 (by rfl)

/-! ## C6 helper lemmas: little-endian bytes and fixed-point truncation -/

/-- Little-endian reassembly `lo | (hi << 8)` is `2^8 * hi + lo` when the
low byte is in range. -/
theorem lor_shift_eq (a b : ℕ) (h : a < 2 ^ 8) : a ||| (b <<< 8) = 2 ^ 8 * b + a := by
  apply Nat.eq_of_testBit_eq
  intro j
  rw [Nat.testBit_lor, Nat.testBit_shiftLeft, Nat.testBit_mul_pow_two_add b h j]
  rcases lt_or_le j 8 with hj | hj
  · simp [hj, Nat.not_le.mpr hj]
  · have h2 : (2 ^ 8 : ℕ) ≤ 2 ^ j := Nat.pow_le_pow_right (by norm_num) hj
    have ha : a.testBit j = false := Nat.testBit_lt_two_pow (lt_of_lt_of_le h h2)
    simp [hj, Nat.not_lt.mpr hj, ha]

/-- The two bytes of `shortBytes n` reassemble to `n` for `n < 2^16`. -/
theorem shortBytes_roundtrip (n : ℕ) (h : n < 2 ^ 16) :
    (n % 2 ^ 8) ||| ((n / 2 ^ 8 % 2 ^ 8) <<< 8) = n := by
  rw [lor_shift_eq _ _ (by omega)]
  omega

/-- Truncation toward zero lies within one unit of the value and never
grows in magnitude. -/
theorem truncQ_bounds (q : ℚ) :
    q - 1 < (truncQ q : ℚ) ∧ (truncQ q : ℚ) < q + 1 ∧ |(truncQ q : ℚ)| ≤ |q| := by
  unfold truncQ
  split_ifs with h
  · have h1 := Int.sub_one_lt_floor q
    have h2 := Int.floor_le q
    have h3 : (0 : ℚ) ≤ ⌊q⌋ := by exact_mod_cast Int.floor_nonneg.mpr h
    refine ⟨h1, by linarith, ?_⟩
    rw [abs_of_nonneg h3, abs_of_nonneg h]
    exact h2
  · have h1 := Int.le_ceil q
    have h2 := Int.ceil_lt_add_one q
    have hq : q < 0 := not_le.mp h
    have h3 : (⌈q⌉ : ℚ) ≤ 0 := by
      have := Int.ceil_le.mpr (show q ≤ ((0 : ℤ) : ℚ) by push_cast; linarith)
      exact_mod_cast this
    refine ⟨by linarith, h2, ?_⟩
    rw [abs_of_nonpos h3, abs_of_nonpos (le_of_lt hq)]
    linarith

/-- Carrying a signed-16-bit-representable integer through `uint16_t`
serialization, little-endian bytes, reassembly and the `int16_t`
reinterpretation recovers it exactly. -/
theorem wrap16_toWord16_roundtrip (t : ℤ) (hlo : -(2 ^ 15) ≤ t) (hhi : t < 2 ^ 15) :
    wrap16 (((toWord16 t % 2 ^ 8) ||| ((toWord16 t / 2 ^ 8 % 2 ^ 8) <<< 8) : ℕ) : ℤ) =
      t := by
  rw [shortBytes_roundtrip (toWord16 t) (by unfold toWord16; omega)]
  unfold wrap16 toWord16
  omega

/-- Every encoded player block is 10 bytes. -/
theorem encodePlayer_length (p : Player) : (encodePlayer p).length = 10 := by
  simp [encodePlayer, shortBytes]

/-- The field contents of a decoded block: dissecting
`decodePlayer (encodePlayer p)` for a player whose id, score and
positions are representable recovers the id, state byte, score and
jetpack flag exactly and each position within `±0.01`. -/
theorem decodePlayer_encodePlayer (p : Player)
    (hid0 : 0 ≤ p.id) (hid1 : p.id < 2 ^ 8)
    (hs0 : 0 ≤ p.score) (hs1 : p.score < 2 ^ 16)
    (hx : |p.posX * 100| < 2 ^ 15) (hy : |p.posY * 100| < 2 ^ 15) :
    ((decodePlayer (encodePlayer p)).id : ℤ) = p.id ∧
    stateOfByte (decodePlayer (encodePlayer p)).stateByte = p.state ∧
    (decodePlayer (encodePlayer p)).jet = p.jet ∧
    ((decodePlayer (encodePlayer p)).score : ℤ) = p.score ∧
    |(decodePlayer (encodePlayer p)).posX - p.posX| ≤ 1 / 100 ∧
    |(decodePlayer (encodePlayer p)).posY - p.posY| ≤ 1 / 100 := by
  have hfields :
      (decodePlayer (encodePlayer p)).id = toByte8 p.id ∧
      (decodePlayer (encodePlayer p)).stateByte = toByte8 (p.state.toByte : ℤ) ∧
      (decodePlayer (encodePlayer p)).score =
        ((toWord16 p.score % 2 ^ 8) |||
          ((toWord16 p.score / 2 ^ 8 % 2 ^ 8) <<< 8)) ∧
      (decodePlayer (encodePlayer p)).posX =
        (wrap16 (((toWord16 (wrap16 (truncQ (p.posX * 100))) % 2 ^ 8) |||
          ((toWord16 (wrap16 (truncQ (p.posX * 100))) / 2 ^ 8 % 2 ^ 8) <<< 8) :
            ℕ) : ℤ) : ℚ) / 100 ∧
      (decodePlayer (encodePlayer p)).posY =
        (wrap16 (((toWord16 (wrap16 (truncQ (p.posY * 100))) % 2 ^ 8) |||
          ((toWord16 (wrap16 (truncQ (p.posY * 100))) / 2 ^ 8 % 2 ^ 8) <<< 8) :
            ℕ) : ℤ) : ℚ) / 100 := by
    refine ⟨?_, ?_, ?_, ?_, ?_⟩ <;>
      simp [decodePlayer, encodePlayer, shortBytes]
  obtain ⟨f1, f2, f4, f5, f6⟩ := hfields
  have hxt := truncQ_bounds (p.posX * 100)
  have hyt := truncQ_bounds (p.posY * 100)
  have hxti : -(2 ^ 15) < truncQ (p.posX * 100) ∧ truncQ (p.posX * 100) < 2 ^ 15 := by
    have habs : |(truncQ (p.posX * 100) : ℚ)| < 2 ^ 15 := lt_of_le_of_lt hxt.2.2 hx
    rw [← Int.cast_abs] at habs
    have h2 : |truncQ (p.posX * 100)| < 2 ^ 15 := by exact_mod_cast habs
    rw [abs_lt] at h2
    exact h2
  have hyti : -(2 ^ 15) < truncQ (p.posY * 100) ∧ truncQ (p.posY * 100) < 2 ^ 15 := by
    have habs : |(truncQ (p.posY * 100) : ℚ)| < 2 ^ 15 := lt_of_le_of_lt hyt.2.2 hy
    rw [← Int.cast_abs] at habs
    have h2 : |truncQ (p.posY * 100)| < 2 ^ 15 := by exact_mod_cast habs
    rw [abs_lt] at h2
    exact h2
  have hwx : wrap16 (truncQ (p.posX * 100)) = truncQ (p.posX * 100) := by
    unfold wrap16
    omega
  have hwy : wrap16 (truncQ (p.posY * 100)) = truncQ (p.posY * 100) := by
    unfold wrap16
    omega
  refine ⟨?_, ?_, ?_, ?_, ?_, ?_⟩
  · rw [f1]
    unfold toByte8
    omega
  · rw [f2]
    cases p.state <;> rfl
  · cases hj : p.jet <;> simp [decodePlayer, encodePlayer, shortBytes, hj]
  · rw [f4, shortBytes_roundtrip (toWord16 p.score) (by unfold toWord16; omega)]
    unfold toWord16
    omega
  · rw [f5, hwx,
      wrap16_toWord16_roundtrip (truncQ (p.posX * 100)) (by omega) hxti.2]
    have h1 := hxt.1
    have h2 := hxt.2.1
    rw [abs_le]
    constructor <;> linarith
  · rw [f6, hwy,
      wrap16_toWord16_roundtrip (truncQ (p.posY * 100)) (by omega) hyti.2]
    have h1 := hyt.1
    have h2 := hyt.2.1
    rw [abs_le]
    constructor <;> linarith

/-- Length of the concatenated player blocks. -/
theorem flatMap_encodePlayer_length (ps : List Player) :
    (ps.flatMap encodePlayer).length = 10 * ps.length := by
  induction ps with
  | nil => simp
  | cons q qs ih =>
    simp only [List.flatMap_cons, List.length_append, List.length_cons,
      encodePlayer_length, ih]
    ring

/-- The player-block loop splits the concatenation back into the original
blocks. -/
theorem decodePlayers_flatMap (ps : List Player) :
    decodePlayers (ps.flatMap encodePlayer) ps.length =
      ps.map fun p => decodePlayer (encodePlayer p) := by
  induction ps with
  | nil => rfl
  | cons q qs ih =>
    have ht : List.take 10 (encodePlayer q ++ qs.flatMap encodePlayer) =
        encodePlayer q := by
      rw [← encodePlayer_length q]
      exact List.take_left _ _
    have hd : List.drop 10 (encodePlayer q ++ qs.flatMap encodePlayer) =
        qs.flatMap encodePlayer := by
      rw [← encodePlayer_length q]
      exact List.drop_left _ _
    simp only [List.flatMap_cons, List.length_cons, decodePlayers,
      List.map_cons, ht, hd, ih]

/-- Decoding an encoded GAME_STATE_UPDATE succeeds and yields exactly the
per-block decodings, provided the player count fits its byte. -/
theorem decodeGameState_encode (ps : List Player) (h : ps.length < 2 ^ 8) :
    decodeGameState (encodeGameState ps) =
      some (ps.map fun p => decodePlayer (encodePlayer p)) := by
  have hmod : ps.length % 2 ^ 8 = ps.length := Nat.mod_eq_of_lt h
  have hflat := flatMap_encodePlayer_length ps
  unfold decodeGameState encodeGameState
  rw [if_pos (by simp)]
  rw [if_neg (by simp)]
  simp only [List.getD_cons_succ, List.getD_cons_zero, hmod]
  rw [if_neg (by simp [hflat]; omega)]
  simp only [List.drop_succ_cons, List.drop_zero]
  rw [decodePlayers_flatMap]

/-- C6 counterexample: a player whose x position (1000) lies outside the
16-bit fixed-point range is corrupted by the encode/decode round trip:
the packet still frames and decodes, but the decoded x is `-310.72`,
more than `0.01` away from the original value, although id, state, score
and jetpack flag are all in range. -/
theorem c6_counterexample :
    decodeGameState (encodeGameState [samplePlayerFar]) =
      some [decodePlayer (encodePlayer samplePlayerFar)] ∧
    (decodePlayer (encodePlayer samplePlayerFar)).posX = -7768 / 25 ∧
    ¬|(decodePlayer (encodePlayer samplePlayerFar)).posX -
        samplePlayerFar.posX| ≤ 1 / 100 := by
  have htr : truncQ (samplePlayerFar.posX * 100) = 100000 := by
    have hv : samplePlayerFar.posX * 100 = ((100000 : ℤ) : ℚ) := by
      norm_num [samplePlayerFar]
    rw [truncQ, hv]
    rw [if_pos (by positivity), Int.floor_intCast]
  have hdx : (decodePlayer (encodePlayer samplePlayerFar)).posX =
      (wrap16 (((toWord16 (wrap16 (truncQ (samplePlayerFar.posX * 100))) % 2 ^ 8) |||
        ((toWord16 (wrap16 (truncQ (samplePlayerFar.posX * 100))) / 2 ^ 8 % 2 ^ 8)
          <<< 8) : ℕ) : ℤ) : ℚ) / 100 := by
    simp [decodePlayer, encodePlayer, shortBytes]
  have h1 : wrap16 (100000 : ℤ) = -31072 := by decide
  have h2 : toWord16 (-31072 : ℤ) = 34464 := by decide
  have h3 : (((34464 % 2 ^ 8) ||| ((34464 / 2 ^ 8 % 2 ^ 8) <<< 8) : ℕ) : ℤ) =
      ((34464 : ℕ) : ℤ) := by decide
  have h4 : wrap16 (((34464 : ℕ) : ℤ)) = -31072 := by decide
  have hval : (decodePlayer (encodePlayer samplePlayerFar)).posX = -7768 / 25 := by
    rw [hdx, htr, h1, h2, h3, h4]
    push_cast
    norm_num
  refine ⟨?_, hval, ?_⟩
  · rw [decodeGameState_encode [samplePlayerFar] (by norm_num)]
    simp
  · rw [hval]
    have hfar : samplePlayerFar.posX = 1000 := rfl
    rw [hfar, abs_of_nonpos (by norm_num)]
    norm_num

/-- C6 (amended): for every player list whose player count fits the count
byte, whose ids, states, scores and jetpack flags are in range, and whose
position coordinates lie in the 16-bit fixed-point range
(|coordinate × 100| < 2^15), encoding a GAME_STATE_UPDATE packet and then
decoding it reproduces each player's id, state, jetpack flag (and score)
exactly, and each position coordinate within ±0.01 of the original value.
Positions outside that range are corrupted by the 16-bit wrap. -/
theorem c6_gameState_roundtrip (ps : List Player)
    (hlen : ps.length < 2 ^ 8)
    (hrange : ∀ p ∈ ps, 0 ≤ p.id ∧ p.id < 2 ^ 8 ∧ 0 ≤ p.score ∧
      p.score < 2 ^ 16 ∧ |p.posX * 100| < 2 ^ 15 ∧ |p.posY * 100| < 2 ^ 15) :
    ∃ ds : List DecodedPlayer,
      decodeGameState (encodeGameState ps) = some ds ∧
      ds.length = ps.length ∧
      ∀ i, i < ps.length →
        ((ds.getD i dummyDecoded).id : ℤ) = (ps.getD i dummyPlayer).id ∧
        stateOfByte (ds.getD i dummyDecoded).stateByte =
          (ps.getD i dummyPlayer).state ∧
        (ds.getD i dummyDecoded).jet = (ps.getD i dummyPlayer).jet ∧
        ((ds.getD i dummyDecoded).score : ℤ) = (ps.getD i dummyPlayer).score ∧
        |(ds.getD i dummyDecoded).posX - (ps.getD i dummyPlayer).posX| ≤ 1 / 100 ∧
        |(ds.getD i dummyDecoded).posY - (ps.getD i dummyPlayer).posY| ≤ 1 / 100 := by
  refine ⟨ps.map fun p => decodePlayer (encodePlayer p),
    decodeGameState_encode ps hlen, by simp, ?_⟩
  intro i hi
  have hgd : (ps.map fun p => decodePlayer (encodePlayer p)).getD i dummyDecoded =
      decodePlayer (encodePlayer (ps.getD i dummyPlayer)) := by
    rw [List.getD_eq_getElem _ _ (by simpa using hi), List.getD_eq_getElem _ _ hi]
    simp
  rw [hgd]
  have hp : ps.getD i dummyPlayer ∈ ps := by
    rw [List.getD_eq_getElem _ _ hi]
    exact List.getElem_mem hi
  obtain ⟨h1, h2, h3, h4, h5, h6⟩ := hrange _ hp
  exact decodePlayer_encodePlayer _ h1 h2 h3 h4 h5 h6

/-- C6 witness: the amended round trip applied to a one-player list with
in-range fields (id 1, Playing, position (1.5, 2.25), score 3, jetpack
on). -/
theorem c6_witness :
    ∃ ds : List DecodedPlayer,
      decodeGameState
          (encodeGameState
            [{ socket := 1, id := 1, posX := 3 / 2, posY := 9 / 4, jet := true,
               score := 3, state := PlayerState.PLAYING }]) = some ds ∧
      ds.length = 1 ∧
      ∀ i, i < 1 →
        ((ds.getD i dummyDecoded).id : ℤ) = 1 ∧
        stateOfByte (ds.getD i dummyDecoded).stateByte = PlayerState.PLAYING ∧
        (ds.getD i dummyDecoded).jet = true ∧
        ((ds.getD i dummyDecoded).score : ℤ) = 3 ∧
        |(ds.getD i dummyDecoded).posX - 3 / 2| ≤ 1 / 100 ∧
        |(ds.getD i dummyDecoded).posY - 9 / 4| ≤ 1 / 100 := by
  have h := c6_gameState_roundtrip
    [{ socket := 1, id := 1, posX := 3 / 2, posY := 9 / 4, jet := true,
       score := 3, state := PlayerState.PLAYING }]
    (by norm_num)
    (by
      intro p hp
      simp only [List.mem_singleton] at hp
      subst hp
      norm_num)
  simpa using h

/-! ## C10: session lifecycle after GAME_OVER -/

/-- `checkGameStart` does nothing unless the session is waiting. -/
theorem checkGameStart_not_waiting (s : ServerState)
    (h : s.gameState ≠ GameState.WAITING_FOR_PLAYERS) :
    checkGameStart s = s := by
  unfold checkGameStart
  rw [if_pos h]

/-- C10 counterexample: a disconnect that drops a mid-match session below
the player minimum sets GAME_OVER but runs no reset — the remaining
player is still in the table and the session does not return to
`WAITING_FOR_PLAYERS`. -/
theorem c10_counterexample :
    (handleClientDisconnect sampleInProgress 1).gameState =
      GameState.GAME_OVER ∧
    (handleClientDisconnect sampleInProgress 1).players ≠ [] := by
  refine ⟨rfl, ?_⟩
  simp [handleClientDisconnect, sampleInProgress, MIN_PLAYERS]

/-- C10 (amended): the reset step runs only on the end-condition path of
`checkGameEnd`, which does return the session to `WAITING_FOR_PLAYERS`
with an empty player table; the disconnect path merely sets GAME_OVER,
and from GAME_OVER no event — tick update, game-start check, accept, or
disconnect — ever changes the session state again, so a session that
reaches GAME_OVER through a disconnect is stuck there. -/
theorem c10_reset_only_on_end_condition :
    (∀ (s : ServerState) (lines : List (List Char)) (s2 : ServerState) (w : ℤ),
      checkGameEnd s lines = some (s2, some w) →
      s2.gameState = GameState.WAITING_FOR_PLAYERS ∧ s2.players = []) ∧
    (∀ (s : ServerState) (sock : ℤ),
      s.gameState = GameState.IN_PROGRESS →
      ((s.players.filter fun p => p.socket ≠ sock).countP
          fun p => p.state = PlayerState.PLAYING) < MIN_PLAYERS →
      (handleClientDisconnect s sock).gameState = GameState.GAME_OVER ∧
      (handleClientDisconnect s sock).players =
        s.players.filter fun p => p.socket ≠ sock) ∧
    (∀ (s : ServerState) (lines : List (List Char)),
      s.gameState = GameState.GAME_OVER →
      updateGameState s lines = some (s, none) ∧
      checkGameStart s = s) ∧
    (∀ (s : ServerState) (sock : ℤ),
      s.gameState = GameState.GAME_OVER →
      (acceptNewClient s sock).gameState = GameState.GAME_OVER ∧
      (handleClientDisconnect s sock).gameState = GameState.GAME_OVER) := by
  refine ⟨?_, ?_, ?_, ?_⟩
  · intro s lines s2 w h
    unfold checkGameEnd at h
    split_ifs at h with hf
    · unfold resetGame at h
      cases hm : loadMap ({ s with gameState := GameState.GAME_OVER }).map lines with
      | none => rw [hm] at h; simp at h
      | some m =>
        rw [hm] at h
        simp only [Option.map_some', Option.some.injEq, Prod.mk.injEq] at h
        rw [← h.1]
        exact ⟨rfl, rfl⟩
    · simp at h
  · intro s sock h1 h2
    simp only [handleClientDisconnect]
    rw [if_pos ⟨h1, h2⟩]
    exact ⟨rfl, rfl⟩
  · intro s lines h
    constructor
    · unfold updateGameState
      rw [if_pos (by simp [h])]
    · exact checkGameStart_not_waiting s (by simp [h])
  · intro s sock h
    constructor
    · unfold acceptNewClient
      split_ifs with hmem
      · rw [checkGameStart_not_waiting s (by simp [h])]
        exact h
      · rw [checkGameStart_not_waiting _ (by simp [h])]
        exact h
    · simp only [handleClientDisconnect]
      split_ifs with hd
      · rfl
      · exact h

/-- C10 witness: concrete instances of each conjunct — a fired end check
resets a session to waiting with no players, the sample disconnect sets
GAME_OVER, and the resulting GAME_OVER session is inert under tick
updates, start checks, accepts and disconnects. -/
theorem c10_witness :
    ((handleClientDisconnect sampleInProgress 1).gameState =
        GameState.GAME_OVER ∧
      (handleClientDisconnect sampleInProgress 1).players =
        sampleInProgress.players.filter fun p => p.socket ≠ 1) ∧
    (updateGameState
        { sampleInProgress with gameState := GameState.GAME_OVER } [['c']] =
      some ({ sampleInProgress with gameState := GameState.GAME_OVER }, none) ∧
      checkGameStart { sampleInProgress with gameState := GameState.GAME_OVER } =
        { sampleInProgress with gameState := GameState.GAME_OVER }) ∧
    (acceptNewClient
        { sampleInProgress with gameState := GameState.GAME_OVER } 9).gameState =
      GameState.GAME_OVER := by
  refine ⟨?_, ?_, ?_⟩
  · exact c10_reset_only_on_end_condition.2.1 sampleInProgress 1 rfl (by decide)
  · exact c10_reset_only_on_end_condition.2.2.1
      { sampleInProgress with gameState := GameState.GAME_OVER } [['c']] rfl
  · exact (c10_reset_only_on_end_condition.2.2.2
      { sampleInProgress with gameState := GameState.GAME_OVER } 9 rfl).1

end Jetpack
